import Mathlib

/-!
Verification of the bot-service template deployer
(`bot_template_deployer.py`): a shallow embedding of its template
resolution, site-name derivation and deployment-parameter assembly,
with theorems settling the specified properties.
-/

namespace BotDeploy

/-- JSON values as produced by JSON parsing in Python: dicts become ordered
association lists of string keys, numbers are modelled as integers. -/
inductive JValue : Type where
  | null : JValue
  | bool (b : Bool) : JValue
  | num (n : Int) : JValue
  | str (s : String) : JValue
  | arr (elems : List JValue) : JValue
  | obj (fields : List (String × JValue)) : JValue

/-- Characters kept by the site-name sanitiser, i.e. the character class
[a-z0-9-] of `re.sub(r'[^a-z0-9\-]', '', ...)` in `create_app`. -/
def siteNameChar (c : Char) : Bool :=
  (97 ≤ c.toNat && c.toNat ≤ 122) || (48 ≤ c.toNat && c.toNat ≤ 57) || c == '-'

/-- Python resource_name[:40].lower() with every character outside [a-z0-9-]
removed, as in `create_app` line 84. -/
def sanitizeSiteChars (l : List Char) : List Char :=
  ((l.take 40).map Char.toLower).filter siteNameChar

/-- The trailing-dash strip loop of `create_app` lines 88-89, acting on the
reversed character list: `while site_name[-1] == '-': site_name = site_name[:-1]`.
Reading index -1 of the empty string raises IndexError, modelled as `none`. -/
def stripDashesRev : List Char → Option (List Char)
  | [] => none
  | c :: rest => if c = '-' then stripDashesRev rest else some (c :: rest)

/-- Site-name derivation of `create_app` lines 84-89. `none` models the
IndexError crash that occurs when the sanitised name consists only of dashes
(including the empty string). -/
def computeSiteName (resourceName : String) : Option String :=
  (stripDashesRev (sanitizeSiteChars resourceName.toList).reverse).map
    (fun l => String.mk l.reverse)

/-- The site-name rule exactly as the specification words it: truncate to 40
characters, lowercase, remove characters outside [a-z0-9-], then repeatedly
strip trailing dashes (a total function, no crash). -/
def specSiteName (resourceName : String) : String :=
  String.mk (((sanitizeSiteChars resourceName.toList).reverse.dropWhile
    (fun c => c = '-')).reverse)

/-- Errors create_app can raise before submitting a deployment: CLIError with
its message (raised by the template resolver), or the IndexError crash of the
site-name strip loop. -/
inductive CreateError : Type where
  | cliError (msg : String)
  | indexError
deriving DecidableEq

/-- Python str.strip applied with the double-quote character, as in
`response.text.strip` on the CDN lookup response body: removes every leading
and trailing double quote. -/
def stripQuotes (s : String) : String :=
  String.mk (((s.toList.dropWhile (fun c => c = '"')).reverse.dropWhile
    (fun c => c = '"')).reverse)

def function_template_name : String := "functionapp.template.json"

def v3_webapp_template_name : String := "webapp.template.json"

def v4_webapp_template_name : String := "webappv4.template.json"

/-- The `__retrieve_bot_template_link` static method. The outcome of the HTTP
GET against the bot-template-root endpoint is an explicit input: `none` models
a non-200 response, `some body` a 200 response with that text body. -/
def retrieveBotTemplateLink (lookup : Option String) (version language kind : String) :
    Except CreateError (String × String) :=
  match lookup with
  | none => .error (.cliError ("Unable to get bot code template from CDN. Please file an issue on " ++
      "https://github.com/Microsoft/botbuilder-tools/issues"))
  | some body =>
    let cdn_link := stripQuotes body
    if version = "v3" then
      if kind = "function" then
        let template_name := function_template_name
        let cdn_link :=
          if language = "Csharp" then cdn_link ++ "csharp-abs-functions_emptybot.zip"
          else if language = "Javascript" then cdn_link ++ "node.js-abs-functions_emptybot_funcpack.zip"
          else cdn_link
        .ok (cdn_link, template_name)
      else
        let template_name := v3_webapp_template_name
        let cdn_link :=
          if language = "Csharp" then cdn_link ++ "csharp-abs-webapp_simpleechobot_precompiled.zip"
          else if language = "Javascript" then cdn_link ++ "node.js-abs-webapp_hello-chatconnector.zip"
          else cdn_link
        .ok (cdn_link, template_name)
    else
      if kind = "function" then
        .error (.cliError "Function bot creation is not supported for v4 bot sdk.")
      else
        let template_name := v4_webapp_template_name
        let cdn_link :=
          if language = "Csharp" then cdn_link ++ "csharp-abs-webapp-v4_echobot_precompiled.zip"
          else if language = "Javascript" then cdn_link ++ "node.js-abs-webapp-v4_echobot.zip"
          else cdn_link
        .ok (cdn_link, template_name)

/-- The template file name decision table of the specification, section 4.1,
written as an explicit table keyed on version and kind. -/
def specTemplateFileName (version kind : String) : String :=
  if version = "v3" ∧ kind = "function" then function_template_name
  else if version = "v3" then v3_webapp_template_name
  else v4_webapp_template_name

/-- The archive-suffix decision table of the specification, section 4.1:
Csharp and Javascript each map to a fixed archive name for the given version
and kind, every other language maps to the empty suffix. -/
def specArchiveSuffix (version language kind : String) : String :=
  if version = "v3" ∧ kind = "function" then
    if language = "Csharp" then "csharp-abs-functions_emptybot.zip"
    else if language = "Javascript" then "node.js-abs-functions_emptybot_funcpack.zip"
    else ""
  else if version = "v3" then
    if language = "Csharp" then "csharp-abs-webapp_simpleechobot_precompiled.zip"
    else if language = "Javascript" then "node.js-abs-webapp_hello-chatconnector.zip"
    else ""
  else
    if language = "Csharp" then "csharp-abs-webapp-v4_echobot_precompiled.zip"
    else if language = "Javascript" then "node.js-abs-webapp-v4_echobot.zip"
    else ""


/-- Assignment of a key on a Python dict modelled as an ordered association
list: replaces the value in place when the key is present, else appends the
pair at the end (insertion-order semantics of Python dicts). -/
def dictSet (d : List (String × JValue)) (k : String) (v : JValue) :
    List (String × JValue) :=
  if d.any (fun p => p.1 == k) then d.map (fun p => if p.1 == k then (k, v) else p)
  else d ++ [(k, v)]

/-- Storage-account name derivation of create_app line 117:
`re.sub` removing every character outside [a-z0-9] from
`resource_name[:24].lower()`. -/
def deriveStorageName (resourceName : String) : String :=
  String.mk (((resourceName.toList.take 24).map Char.toLower).filter
    (fun c => (97 ≤ c.toNat && c.toNat ≤ 122) || (48 ≤ c.toNat && c.toNat ≤ 57)))

/-- Python `.lower().replace` removing spaces after lowercasing, used for
serverFarmLocation (line 105) and appInsightsLocation (line 125). -/
def lowerNoSpaces (s : String) : String :=
  String.mk ((s.toList.map Char.toLower).filter (fun c => !(c == ' ')))

/-- The create_app inputs that feed the ARM parameter dictionary; the
subscription id stands for `client.config.subscription_id`, while the cmd,
logger and client handles are external collaborators. -/
structure CreateAppArgs where
  subscriptionId : String
  resourceGroupName : String
  resourceName : String
  description : String
  kind : String
  appid : String
  password : String
  storageAccountName : String
  location : String
  skuName : String
  appInsightsLocation : String
  language : String
  version : String

/-- The paramsdict assembled by create_app lines 93-128, given the normalized
kind, the derived site name and the resolved zip URL. Conditional entries use
dictSet, mirroring the Python dict assignments in source order; the Python
truthiness tests on description and storageAccountName become emptiness
tests on strings. -/
def paramsDict (a : CreateAppArgs) (kind siteName zipUrl : String) :
    List (String × JValue) :=
  let d : List (String × JValue) := [
    ("location", .str a.location),
    ("kind", .str kind),
    ("sku", .str a.skuName),
    ("siteName", .str siteName),
    ("appId", .str a.appid),
    ("appSecret", .str a.password),
    ("serverFarmId", .str ("/subscriptions/" ++ a.subscriptionId ++ "/resourceGroups/" ++
      a.resourceGroupName ++ "/providers/Microsoft.Web/serverfarms/" ++ a.resourceName)),
    ("zipUrl", .str zipUrl),
    ("botEnv", .str "prod"),
    ("createServerFarm", .bool true),
    ("serverFarmLocation", .str (lowerNoSpaces a.location)),
    ("azureWebJobsBotFrameworkDirectLineSecret", .str ""),
    ("botId", .str a.resourceName)]
  let d := if a.description ≠ "" then dictSet d "description" (.str a.description) else d
  if a.version = "v3" then
    let d := dictSet d "createNewStorage" (.bool false)
    let d := dictSet d "storageAccountResourceId" (.str "")
    let storageName := if a.storageAccountName = "" then deriveStorageName a.resourceName
      else a.storageAccountName
    let d := if a.storageAccountName = "" then dictSet d "createNewStorage" (.bool true) else d
    let d := dictSet d "storageAccountName" (.str storageName)
    let d := dictSet d "useAppInsights" (.bool true)
    dictSet d "appInsightsLocation" (.str (lowerNoSpaces a.appInsightsLocation))
  else d

/-- create_app line 130: every paramsdict value v is wrapped as the object
with the single key "value" holding v. -/
def wrapParams (d : List (String × JValue)) : List (String × JValue) :=
  d.map (fun p => (p.1, JValue.obj [("value", p.2)]))

/-- The deployment request create_app hands to deploy_arm_template: resource
group, selected template file, deployment name, wrapped parameters, mode. -/
structure DeploymentRequest where
  resourceGroupName : String
  templateFile : String
  deploymentName : String
  parameters : List (String × JValue)
  mode : String

/-- create_app lines 78-143 up to the deployment submission: normalizes the
kind, resolves the template (the HTTP lookup outcome is the lookup argument),
derives the site name, assembles the parameters and returns the deployment
request that would be submitted. An error result means create_app raises at
that point, before any deployment is attempted. -/
def createApp (lookup : Option String) (a : CreateAppArgs) :
    Except CreateError DeploymentRequest :=
  let kind := if a.kind = "webapp" then "sdk" else a.kind
  match retrieveBotTemplateLink lookup a.version a.language kind with
  | .error e => .error e
  | .ok (zipUrl, templateName) =>
    match computeSiteName a.resourceName with
    | none => .error .indexError
    | some siteName =>
      .ok { resourceGroupName := a.resourceGroupName
            templateFile := templateName
            deploymentName := a.resourceName
            parameters := wrapParams (paramsDict a kind siteName zipUrl)
            mode := "Incremental" }


/-- The five parameter keys that are specific to version v3. -/
def storageKeys : List String :=
  ["createNewStorage", "storageAccountResourceId", "storageAccountName",
   "useAppInsights", "appInsightsLocation"]

/-- Values that appear raw in paramsdict: plain strings and booleans, never
objects. -/
def scalarValue : JValue → Bool
  | .str _ => true
  | .bool _ => true
  | _ => false

/-- Uncaught Python exceptions the parameter merge can raise: the
AttributeError of calling .get on a non-dict parse result, and the error of
handing dict.update a truthy non-dict. -/
inductive PyError : Type where
  | attributeError
  | typeError
deriving DecidableEq

/-- Lookup of a key in a Python dict modelled as an ordered association
list. -/
def dictLookup : List (String × JValue) → String → Option JValue
  | [], _ => none
  | p :: rest, k => if p.1 == k then some p.2 else dictLookup rest k

/-- Python dict.get with a default value. -/
def dictGet (fields : List (String × JValue)) (k : String) (dflt : JValue) : JValue :=
  match dictLookup fields k with
  | some v => v
  | none => dflt

/-- Python dict.update: every pair of the source is assigned into the target
in source order, overriding existing keys. -/
def dictUpdate (d : List (String × JValue)) (src : List (String × JValue)) :
    List (String × JValue) :=
  src.foldl (fun acc p => dictSet acc p.1 p.2) d

/-- JSON insignificant whitespace. -/
def jsonWs (c : Char) : Bool :=
  c == ' ' || c == '\t' || c == '\n' || c == '\r'

def skipWs (l : List Char) : List Char :=
  l.dropWhile jsonWs

/-- Body of a JSON string literal after the opening quote, with the common
escapes; fuel is spent once per consumed character. -/
def parseStringBody (fuel : Nat) (acc : List Char) (l : List Char) :
    Option (String × List Char) :=
  match fuel, l with
  | 0, _ => none
  | _, [] => none
  | fuel + 1, c :: rest =>
    if c == '"' then some (String.mk acc.reverse, rest)
    else if c == '\\' then
      match rest with
      | [] => none
      | e :: rest2 =>
        if e == '"' then parseStringBody fuel ('"' :: acc) rest2
        else if e == '\\' then parseStringBody fuel ('\\' :: acc) rest2
        else if e == '/' then parseStringBody fuel ('/' :: acc) rest2
        else if e == 'n' then parseStringBody fuel ('\n' :: acc) rest2
        else if e == 't' then parseStringBody fuel ('\t' :: acc) rest2
        else if e == 'r' then parseStringBody fuel ('\r' :: acc) rest2
        else if e == 'b' then parseStringBody fuel ('\x08' :: acc) rest2
        else if e == 'f' then parseStringBody fuel ('\x0c' :: acc) rest2
        else none
    else parseStringBody fuel (c :: acc) rest

def parseJString (l : List Char) : Option (String × List Char) :=
  parseStringBody (l.length + 1) [] l

/-- JSON integer numeral: optional minus, one or more digits; fractional and
exponent forms are not modelled. -/
def parseNumber (l : List Char) : Option (JValue × List Char) :=
  let p := match l with
    | '-' :: rest => (true, rest)
    | _ => (false, l)
  match p.2 with
  | [] => none
  | c :: _ =>
    if c.isDigit then
      let digits := p.2.takeWhile Char.isDigit
      let rest := p.2.dropWhile Char.isDigit
      let n : Nat := digits.foldl (fun acc d => acc * 10 + (d.toNat - 48)) 0
      match rest with
      | '.' :: _ => none
      | 'e' :: _ => none
      | 'E' :: _ => none
      | _ => some (.num (if p.1 then -(n : Int) else (n : Int)), rest)
    else none

mutual

/-- JSON value parser, fuel-bounded; objects collect their members with the
Python dict assignment semantics (dictSet), so a later duplicate key
overrides an earlier one in place. -/
def parseValue : Nat → List Char → Option (JValue × List Char)
  | 0, _ => none
  | fuel + 1, l =>
    match skipWs l with
    | [] => none
    | c :: rest =>
      if c == 'n' then
        match rest with
        | 'u' :: 'l' :: 'l' :: r => some (.null, r)
        | _ => none
      else if c == 't' then
        match rest with
        | 'r' :: 'u' :: 'e' :: r => some (.bool true, r)
        | _ => none
      else if c == 'f' then
        match rest with
        | 'a' :: 'l' :: 's' :: 'e' :: r => some (.bool false, r)
        | _ => none
      else if c == '"' then
        match parseJString rest with
        | some p => some (.str p.1, p.2)
        | none => none
      else if c == '\x7b' then parseMembers fuel [] rest true
      else if c == '[' then parseItems fuel [] rest true
      else if c == '-' || c.isDigit then parseNumber (c :: rest)
      else none

/-- Members of a JSON object; allowEnd permits an immediate closing brace
(the empty object), which is not allowed right after a comma. -/
def parseMembers : Nat → List (String × JValue) → List Char → Bool →
    Option (JValue × List Char)
  | 0, _, _, _ => none
  | fuel + 1, acc, l, allowEnd =>
    match skipWs l with
    | [] => none
    | c :: rest =>
      if c == '\x7d' then
        if allowEnd then some (.obj acc, rest) else none
      else if c == '"' then
        match parseJString rest with
        | none => none
        | some (key, rest2) =>
          match skipWs rest2 with
          | ':' :: rest3 =>
            match parseValue fuel rest3 with
            | none => none
            | some (v, rest4) =>
              match skipWs rest4 with
              | ',' :: rest5 => parseMembers fuel (dictSet acc key v) rest5 false
              | '\x7d' :: rest5 => some (.obj (dictSet acc key v), rest5)
              | _ => none
          | _ => none
      else none

/-- Items of a JSON array; allowEnd permits an immediate closing bracket. -/
def parseItems : Nat → List JValue → List Char → Bool →
    Option (JValue × List Char)
  | 0, _, _, _ => none
  | fuel + 1, acc, l, allowEnd =>
    match skipWs l with
    | [] => none
    | c :: rest =>
      if c == ']' then
        if allowEnd then some (.arr acc.reverse, rest) else none
      else
        match parseValue fuel (c :: rest) with
        | none => none
        | some (v, rest2) =>
          match skipWs rest2 with
          | ',' :: rest3 => parseItems fuel (v :: acc) rest3 false
          | ']' :: rest3 => some (.arr (v :: acc).reverse, rest3)
          | _ => none

end

/-- Modelled from the spec: shell_safe_json_parse comes from azure.cli.core.util,
which is not among the sources under src; the spec describes the merge as
attempting each raw string as JSON, an unparsable string raising the CLIError
that the caller catches. This standard JSON parse (integer numerals only)
returns none exactly where that helper raises CLIError. -/
def jsonParse (s : String) : Option JValue :=
  match parseValue (2 * s.toList.length + 4) s.toList with
  | none => none
  | some (v, rest) => if (skipWs rest).isEmpty then some v else none

/-- The helper _try_parse_json_object of __process_parameters: an unparsable string
gives None (the CLIError is caught); a parsed dict gives parsed.get of the
"parameters" key with the dict itself as default; any non-dict parse result
raises AttributeError at the .get attribute access, which is not caught. -/
def tryParseJsonObject (value : String) : Except PyError (Option JValue) :=
  match jsonParse value with
  | none => .ok none
  | some parsed =>
    match parsed with
    | .obj fields => .ok (some (dictGet fields "parameters" (.obj fields)))
    | _ => .error .attributeError

/-- Python truthiness of a JSON-decoded value. -/
def truthy : JValue → Bool
  | .null => false
  | .bool b => b
  | .num n => !(n == 0)
  | .str s => !s.isEmpty
  | .arr xs => !xs.isEmpty
  | .obj fs => !fs.isEmpty

/-- One iteration of the __process_parameters inner loop: parse the item,
skip it when the result is falsy (None included), merge it with dict.update
when it is a truthy dict, raise when update is handed a truthy non-dict. -/
def processItem (parameters : List (String × JValue)) (item : String) :
    Except PyError (List (String × JValue)) :=
  match tryParseJsonObject item with
  | .error e => .error e
  | .ok none => .ok parameters
  | .ok (some paramObj) =>
    if truthy paramObj then
      match paramObj with
      | .obj fs => .ok (dictUpdate parameters fs)
      | _ => .error .typeError
    else .ok parameters

/-- The static method __process_parameters: folds every raw string of every source list, in
order, into one flat parameter dict, starting from the empty dict. -/
def processParameters (parameterLists : List (List String)) :
    Except PyError (List (String × JValue)) :=
  parameterLists.flatten.foldlM processItem []

theorem stripDashesRev_eq_dropWhile (l : List Char) :
    stripDashesRev l =
      match l.dropWhile (fun c => c = '-') with
      | [] => none
      | r => some r := by
  induction l with
  | nil => rfl
  | cons c rest ih =>
    by_cases h : c = '-'
    · simp [stripDashesRev, List.dropWhile, h, ih]
    · simp [stripDashesRev, List.dropWhile, h]

theorem dropWhile_head_false {p : Char → Bool} :
    ∀ (l : List Char) (c : Char) (t : List Char),
      l.dropWhile p = c :: t → p c = false := by
  intro l
  induction l with
  | nil => intro c t h; simp [List.dropWhile] at h
  | cons a rest ih =>
    intro c t h
    by_cases hp : p a
    · simp [List.dropWhile, hp] at h
      exact ih c t h
    · simp [List.dropWhile, hp] at h
      rw [← h.1]
      exact Bool.of_not_eq_true hp

theorem toLower_eq_self_of_siteNameChar {c : Char} (h : siteNameChar c = true) :
    Char.toLower c = c := by
  unfold siteNameChar at h
  unfold Char.toLower
  rw [if_neg]
  simp only [Bool.or_eq_true, Bool.and_eq_true, decide_eq_true_eq, beq_iff_eq] at h
  rcases h with (⟨h1, h2⟩ | ⟨h1, h2⟩) | h1
  · omega
  · omega
  · subst h1; decide

/-- C6: whenever `create_app`'s site-name derivation produces a name, that
name equals the specification's formula (40-char truncation, lowercasing,
stripping of characters outside [a-z0-9-], removal of trailing dashes); in
particular the input "My--Bot---" yields "my--bot". -/
theorem c6_site_name_matches_spec :
    (∀ s r, computeSiteName s = some r → r = specSiteName s) ∧
    computeSiteName "My--Bot---" = some "my--bot" := by
  constructor
  · intro s r h
    unfold computeSiteName at h
    rw [stripDashesRev_eq_dropWhile] at h
    unfold specSiteName
    revert h
    cases hd : (sanitizeSiteChars s.toList).reverse.dropWhile (fun c => c = '-') with
    | nil => intro h; simp at h
    | cons c t =>
      intro h
      simp only [Option.map_some'] at h
      exact (Option.some.inj h).symm
  · decide

theorem c6_site_name_matches_spec_witness :
    computeSiteName "My--Bot---" = some "my--bot" ∧
    "my--bot" = specSiteName "My--Bot---" :=
  ⟨c6_site_name_matches_spec.2,
   c6_site_name_matches_spec.1 "My--Bot---" "my--bot" c6_site_name_matches_spec.2⟩

theorem sanitize_fixes_sanitized {s : String} {r : String}
    (h : computeSiteName s = some r) :
    sanitizeSiteChars r.toList = r.toList ∧
    stripDashesRev r.toList.reverse = some r.toList.reverse := by
  unfold computeSiteName at h
  rw [stripDashesRev_eq_dropWhile] at h
  revert h
  cases hd : (sanitizeSiteChars s.toList).reverse.dropWhile (fun c => c = '-') with
  | nil => intro h; simp at h
  | cons c t =>
    intro h
    simp only [Option.map_some'] at h
    have hinj := Option.some.inj h
    have hr : r.toList = (c :: t).reverse := by
      rw [← hinj]
      rfl
    have hsub : ∀ x ∈ c :: t, siteNameChar x = true := by
      intro x hx
      have hmem : x ∈ (sanitizeSiteChars s.toList).reverse := by
        rw [← hd] at hx
        exact (List.dropWhile_sublist _).subset hx
      rw [List.mem_reverse] at hmem
      exact List.of_mem_filter hmem
    have hlen : (c :: t).length ≤ 40 := by
      have h1 : ((sanitizeSiteChars s.toList).reverse.dropWhile
          (fun c => c = '-')).length ≤ (sanitizeSiteChars s.toList).reverse.length :=
        (List.dropWhile_sublist _).length_le
      rw [hd] at h1
      rw [List.length_reverse] at h1
      have h2 : (sanitizeSiteChars s.toList).length ≤ 40 := by
        unfold sanitizeSiteChars
        calc (((s.toList.take 40).map Char.toLower).filter siteNameChar).length
            ≤ ((s.toList.take 40).map Char.toLower).length := List.length_filter_le _ _
          _ = (s.toList.take 40).length := List.length_map _ _
          _ ≤ 40 := List.length_take_le _ _
      omega
    constructor
    · rw [hr]
      unfold sanitizeSiteChars
      rw [List.take_of_length_le (by rw [List.length_reverse]; exact hlen)]
      rw [List.map_congr_left (fun x hx =>
        toLower_eq_self_of_siteNameChar (hsub x (List.mem_reverse.mp hx)))]
      rw [List.map_id']
      exact List.filter_eq_self.mpr (fun x hx => hsub x (List.mem_reverse.mp hx))
    · rw [hr, List.reverse_reverse]
      have hc : c ≠ '-' := by
        have := dropWhile_head_false _ _ _ hd
        simpa using this
      simp [stripDashesRev, hc]

/-- C7: the site-name derivation is idempotent: whenever it is defined on an
input, applying it to its own output returns that output unchanged. -/
theorem c7_site_name_idempotent :
    ∀ s r, computeSiteName s = some r → computeSiteName r = some r := by
  intro s r h
  obtain ⟨hsan, hstrip⟩ := sanitize_fixes_sanitized h
  unfold computeSiteName
  rw [hsan, hstrip]
  simp

theorem c7_site_name_idempotent_witness :
    computeSiteName "my--bot" = some "my--bot" :=
  c7_site_name_idempotent "My--Bot---" "my--bot" (by decide)

/-- C3: for every combination except v4 + function, when the remote root
lookup succeeds the resolver returns success, the template file name follows
the section 4.1 table, and the artifact URL is the quote-stripped root with
the language-specific archive suffix appended. -/
theorem c3_resolver_matches_table :
    ∀ root version language kind, ¬(version ≠ "v3" ∧ kind = "function") →
      retrieveBotTemplateLink (some root) version language kind =
        .ok (stripQuotes root ++ specArchiveSuffix version language kind,
             specTemplateFileName version kind) := by
  intro root version language kind h
  unfold retrieveBotTemplateLink specTemplateFileName specArchiveSuffix
  by_cases hv : version = "v3" <;> by_cases hk : kind = "function" <;>
    by_cases hc : language = "Csharp" <;> by_cases hj : language = "Javascript" <;>
    simp_all

theorem c3_resolver_matches_table_witness :
    retrieveBotTemplateLink (some "\"root/\"") "v3" "Javascript" "function" =
      .ok (stripQuotes "\"root/\"" ++ specArchiveSuffix "v3" "Javascript" "function",
           specTemplateFileName "v3" "function") :=
  c3_resolver_matches_table "\"root/\"" "v3" "Javascript" "function" (by decide)

/-- C9: for every language other than Csharp and Javascript, and every
combination other than v4 + function, the resolver leaves the quote-stripped
root URL unsuffixed. -/
theorem c9_other_language_bare_root :
    ∀ root version language kind, language ≠ "Csharp" → language ≠ "Javascript" →
      ¬(version ≠ "v3" ∧ kind = "function") →
      ∃ name, retrieveBotTemplateLink (some root) version language kind =
        .ok (stripQuotes root, name) := by
  intro root version language kind hc hj h
  refine ⟨specTemplateFileName version kind, ?_⟩
  rw [c3_resolver_matches_table root version language kind h]
  have hsuffix : specArchiveSuffix version language kind = "" := by
    unfold specArchiveSuffix
    by_cases hv : version = "v3" <;> by_cases hk : kind = "function" <;> simp_all
  rw [hsuffix, String.append_empty]

theorem c9_other_language_bare_root_witness :
    ∃ name, retrieveBotTemplateLink (some "\"root/\"") "v3" "Python" "sdk" =
      .ok (stripQuotes "\"root/\"", name) :=
  c9_other_language_bare_root "\"root/\"" "v3" "Python" "sdk"
    (by decide) (by decide) (by decide)

/-- C2: for every language and every version other than v3, requesting kind
'function' makes create_app fail with the CLIError stating that function bots
are unsupported for the v4 sdk (given that the remote root lookup succeeds);
the error result shows the failure occurs before any deployment request is
produced. -/
theorem c2_v4_function_unsupported :
    ∀ (root : String) (a : CreateAppArgs), a.version ≠ "v3" → a.kind = "function" →
      createApp (some root) a =
        .error (.cliError "Function bot creation is not supported for v4 bot sdk.") := by
  intro root a hv hk
  unfold createApp retrieveBotTemplateLink
  simp [hk, hv]

theorem c2_v4_function_unsupported_witness :
    createApp (some "\"https://cdn.example.com/\"")
      { subscriptionId := "sub", resourceGroupName := "rg", resourceName := "mybot",
        description := "", kind := "function", appid := "appid", password := "pw",
        storageAccountName := "", location := "West US", skuName := "F0",
        appInsightsLocation := "West US 2", language := "Csharp", version := "v4" } =
      .error (.cliError "Function bot creation is not supported for v4 bot sdk.") :=
  c2_v4_function_unsupported "\"https://cdn.example.com/\"" _ (by decide) rfl

/-- C1: on a resource name such as "----" whose sanitised site name strips to
the empty string, create_app does not raise a ValidationError: the while loop
empties the name and the next index access crashes with an IndexError, here
the indexError outcome, with no deployment attempted. -/
theorem c1_empty_site_name_index_error :
    createApp (some "\"root/\"")
      { subscriptionId := "sub", resourceGroupName := "rg", resourceName := "----",
        description := "", kind := "webapp", appid := "appid", password := "pw",
        storageAccountName := "", location := "West US", skuName := "F0",
        appInsightsLocation := "West US 2", language := "Csharp", version := "v4" } =
      .error .indexError := by
  rfl


/-- C4: for every input, the parameter dictionary built with version v3
contains all five storage and app-insights keys, and the one built with
version v4 contains none of them. -/
theorem c4_v3_keys_present_v4_absent :
    ∀ (a : CreateAppArgs) (kind siteName zipUrl k : String), k ∈ storageKeys →
      (a.version = "v3" → k ∈ (paramsDict a kind siteName zipUrl).map Prod.fst) ∧
      (a.version = "v4" → k ∉ (paramsDict a kind siteName zipUrl).map Prod.fst) := by
  intro a kind siteName zipUrl k hk
  constructor <;> intro hv <;>
    by_cases hd : a.description = "" <;> by_cases hs : a.storageAccountName = "" <;>
    fin_cases hk <;>
    simp [paramsDict, dictSet, hv, hd, hs]

theorem c4_v3_keys_present_v4_absent_witness :
    ("useAppInsights" ∈ (paramsDict
      { subscriptionId := "sub", resourceGroupName := "rg", resourceName := "mybot",
        description := "", kind := "sdk", appid := "appid", password := "pw",
        storageAccountName := "", location := "West US", skuName := "F0",
        appInsightsLocation := "West US 2", language := "Csharp", version := "v3" }
      "sdk" "mybot" "https://cdn.example.com/x.zip").map Prod.fst) ∧
    ("useAppInsights" ∉ (paramsDict
      { subscriptionId := "sub", resourceGroupName := "rg", resourceName := "mybot",
        description := "", kind := "sdk", appid := "appid", password := "pw",
        storageAccountName := "", location := "West US", skuName := "F0",
        appInsightsLocation := "West US 2", language := "Csharp", version := "v4" }
      "sdk" "mybot" "https://cdn.example.com/x.zip").map Prod.fst) :=
  ⟨(c4_v3_keys_present_v4_absent _ "sdk" "mybot" "https://cdn.example.com/x.zip"
      "useAppInsights" (by decide)).1 rfl,
   (c4_v3_keys_present_v4_absent _ "sdk" "mybot" "https://cdn.example.com/x.zip"
      "useAppInsights" (by decide)).2 rfl⟩

theorem paramsDict_values_scalar :
    ∀ (a : CreateAppArgs) (kind siteName zipUrl : String),
      (paramsDict a kind siteName zipUrl).all (fun p => scalarValue p.2) = true := by
  intro a kind siteName zipUrl
  by_cases hd : a.description = "" <;> by_cases hs : a.storageAccountName = "" <;>
    by_cases hv : a.version = "v3" <;>
    simp [paramsDict, dictSet, hd, hs, hv, scalarValue]

/-- C8: every value of the wrapped parameter map is wrapped exactly once: it
is an object with the single key "value" holding a raw value, and that raw
value is never itself such a single-key wrapping. -/
theorem c8_values_wrapped_once :
    ∀ (a : CreateAppArgs) (kind siteName zipUrl k : String) (v : JValue),
      (k, v) ∈ wrapParams (paramsDict a kind siteName zipUrl) →
      ∃ raw, v = .obj [("value", raw)] ∧ ∀ raw2, raw ≠ .obj [("value", raw2)] := by
  intro a kind siteName zipUrl k v hmem
  unfold wrapParams at hmem
  rw [List.mem_map] at hmem
  obtain ⟨p, hp, heq⟩ := hmem
  have hscalar := List.all_eq_true.mp (paramsDict_values_scalar a kind siteName zipUrl) p hp
  refine ⟨p.2, ?_, ?_⟩
  · have := congrArg Prod.snd heq
    exact this.symm
  · intro raw2 hcontra
    revert hscalar
    rw [hcontra]
    simp [scalarValue]

theorem c8_values_wrapped_once_witness :
    ∃ raw, JValue.obj [("value", JValue.str "West US")] = .obj [("value", raw)] ∧
      ∀ raw2, raw ≠ .obj [("value", raw2)] :=
  c8_values_wrapped_once
    { subscriptionId := "sub", resourceGroupName := "rg", resourceName := "mybot",
      description := "", kind := "sdk", appid := "appid", password := "pw",
      storageAccountName := "", location := "West US", skuName := "F0",
      appInsightsLocation := "West US 2", language := "Csharp", version := "v4" }
    "sdk" "mybot" "https://cdn.example.com/x.zip" "location"
    (JValue.obj [("value", JValue.str "West US")]) (List.Mem.head _)

theorem processParameters_snoc (ls : List (List String)) (item : String) :
    processParameters (ls ++ [[item]]) =
      (processParameters ls).bind (fun d => processItem d item) := by
  unfold processParameters
  rw [List.flatten_append, List.foldlM_append]
  cases ls.flatten.foldlM processItem [] with
  | error e => rfl
  | ok d =>
    show (List.foldlM processItem d [item]) = processItem d item
    rw [List.foldlM_cons]
    cases processItem d item <;> rfl

theorem dictLookup_map_replace {k : String} {v : JValue} :
    ∀ d : List (String × JValue), d.any (fun p => p.1 == k) = true →
      dictLookup (d.map (fun p => if p.1 == k then (k, v) else p)) k = some v := by
  intro d
  induction d with
  | nil => intro h; simp at h
  | cons q rest ih =>
    intro h
    by_cases hq : q.1 = k
    · simp [dictLookup, hq]
    · rw [List.any_cons] at h
      have hqb : (q.1 == k) = false := beq_eq_false_iff_ne.mpr hq
      rw [hqb, Bool.false_or] at h
      simp only [List.map_cons]
      have hgoal := ih h
      simp only [beq_iff_eq] at hgoal
      simp [dictLookup, hq, hgoal]

theorem dictLookup_append_single_self {k : String} {v : JValue} :
    ∀ d : List (String × JValue), d.any (fun p => p.1 == k) = false →
      dictLookup (d ++ [(k, v)]) k = some v := by
  intro d
  induction d with
  | nil => intro _; simp [dictLookup]
  | cons q rest ih =>
    intro h
    rw [List.any_cons, Bool.or_eq_false_iff] at h
    have hq : ¬q.1 = k := by simpa using h.1
    simp [dictLookup, hq, ih h.2]

theorem dictLookup_map_replace_ne {k k' : String} {v : JValue} (hne : k' ≠ k) :
    ∀ d : List (String × JValue),
      dictLookup (d.map (fun p => if p.1 == k then (k, v) else p)) k' =
        dictLookup d k' := by
  intro d
  induction d with
  | nil => rfl
  | cons q rest ih =>
    have ih2 : dictLookup (List.map (fun p => if p.1 = k then (k, v) else p) rest) k' =
        dictLookup rest k' := by
      have := ih
      simp only [beq_iff_eq] at this
      exact this
    by_cases hq : q.1 = k
    · simp [dictLookup, hq, Ne.symm hne, ih2]
    · by_cases hq' : q.1 = k'
      · simp [dictLookup, hq, hq', hne]
      · simp [dictLookup, hq, hq', ih2]

theorem dictLookup_append_single_ne {k k' : String} {v : JValue} (hne : k' ≠ k) :
    ∀ d : List (String × JValue),
      dictLookup (d ++ [(k, v)]) k' = dictLookup d k' := by
  intro d
  induction d with
  | nil => simp [dictLookup, Ne.symm hne]
  | cons q rest ih =>
    by_cases hq' : q.1 = k'
    · simp [dictLookup, hq']
    · simp [dictLookup, hq', ih]

theorem dictLookup_dictSet_self (d : List (String × JValue)) (k : String) (v : JValue) :
    dictLookup (dictSet d k v) k = some v := by
  unfold dictSet
  by_cases h : d.any (fun p => p.1 == k)
  · rw [if_pos h]
    exact dictLookup_map_replace d h
  · rw [if_neg h]
    exact dictLookup_append_single_self d (Bool.eq_false_iff.mpr h)

theorem dictLookup_dictSet_ne (d : List (String × JValue)) (k k' : String)
    (v : JValue) (hne : k' ≠ k) :
    dictLookup (dictSet d k v) k' = dictLookup d k' := by
  unfold dictSet
  by_cases h : d.any (fun p => p.1 == k)
  · rw [if_pos h]
    exact dictLookup_map_replace_ne hne d
  · rw [if_neg h]
    exact dictLookup_append_single_ne hne d

theorem dictLookup_eq_none_of_not_mem {k : String} :
    ∀ {fs : List (String × JValue)}, k ∉ fs.map Prod.fst → dictLookup fs k = none := by
  intro fs
  induction fs with
  | nil => intro _; rfl
  | cons q rest ih =>
    intro h
    rw [List.map_cons, List.mem_cons] at h
    push_neg at h
    have hq : (q.1 == k) = false := beq_eq_false_iff_ne.mpr (fun hc => h.1 hc.symm)
    simp [dictLookup, hq, ih h.2]

theorem dictUpdate_lookup_none :
    ∀ (fs d : List (String × JValue)) (k : String), dictLookup fs k = none →
      dictLookup (dictUpdate d fs) k = dictLookup d k := by
  intro fs
  induction fs with
  | nil => intro d k _; rfl
  | cons q rest ih =>
    intro d k h
    rw [show dictLookup (q :: rest) k =
      if q.1 == k then some q.2 else dictLookup rest k from rfl] at h
    by_cases hq : (q.1 == k) = true
    · rw [if_pos hq] at h
      exact absurd h (by simp)
    · rw [if_neg hq] at h
      show dictLookup (dictUpdate (dictSet d q.1 q.2) rest) k = dictLookup d k
      rw [ih (dictSet d q.1 q.2) k h]
      have hne : k ≠ q.1 := fun hc => (by simpa using hq : ¬q.1 = k) hc.symm
      exact dictLookup_dictSet_ne d q.1 k q.2 hne

theorem dictUpdate_lookup_override :
    ∀ (fs d : List (String × JValue)) (k : String) (v : JValue),
      (fs.map Prod.fst).Nodup → dictLookup fs k = some v →
      dictLookup (dictUpdate d fs) k = some v := by
  intro fs
  induction fs with
  | nil => intro d k v _ h; exact absurd h (by simp [dictLookup])
  | cons q rest ih =>
    intro d k v hnd h
    rw [List.map_cons, List.nodup_cons] at hnd
    rw [show dictLookup (q :: rest) k =
      if q.1 == k then some q.2 else dictLookup rest k from rfl] at h
    by_cases hq : (q.1 == k) = true
    · rw [if_pos hq] at h
      have hv : q.2 = v := by simpa using h
      have hk : q.1 = k := by simpa using hq
      have hrest : dictLookup rest k = none := by
        refine dictLookup_eq_none_of_not_mem ?_
        rw [← hk]
        exact hnd.1
      show dictLookup (dictUpdate (dictSet d q.1 q.2) rest) k = some v
      rw [dictUpdate_lookup_none rest (dictSet d q.1 q.2) k hrest, hk, hv]
      exact dictLookup_dictSet_self d k v
    · rw [if_neg hq] at h
      exact ih (dictSet d q.1 q.2) k v hnd.2 h

theorem processItem_of_parse_none {item : String} (d : List (String × JValue))
    (h : jsonParse item = none) : processItem d item = .ok d := by
  unfold processItem tryParseJsonObject
  rw [h]

theorem tryParse_obj {item : String} {fields : List (String × JValue)}
    (h : jsonParse item = some (.obj fields)) :
    tryParseJsonObject item = .ok (some (dictGet fields "parameters" (.obj fields))) := by
  unfold tryParseJsonObject
  rw [h]

theorem processItem_obj_no_params {item : String} {fields : List (String × JValue)}
    (d : List (String × JValue)) (h : jsonParse item = some (.obj fields))
    (hlook : dictLookup fields "parameters" = none) (hne : fields ≠ []) :
    processItem d item = .ok (dictUpdate d fields) := by
  have hget : dictGet fields "parameters" (JValue.obj fields) = JValue.obj fields := by
    unfold dictGet
    rw [hlook]
  have htr : truthy (JValue.obj fields) = true := by
    cases fields with
    | nil => exact absurd rfl hne
    | cons q rest => rfl
  unfold processItem
  rw [tryParse_obj h, hget]
  simp [htr]

theorem processItem_obj_params {item : String}
    {fields inner : List (String × JValue)} (d : List (String × JValue))
    (h : jsonParse item = some (.obj fields))
    (hlook : dictLookup fields "parameters" = some (.obj inner)) (hne : inner ≠ []) :
    processItem d item = .ok (dictUpdate d inner) := by
  have hget : dictGet fields "parameters" (JValue.obj fields) = JValue.obj inner := by
    unfold dictGet
    rw [hlook]
  have htr : truthy (JValue.obj inner) = true := by
    cases inner with
    | nil => exact absurd rfl hne
    | cons q rest => rfl
  unfold processItem
  rw [tryParse_obj h, hget]
  simp [htr]

/-- C5: the parameter merge parses each raw string as JSON; an unparsable
entry is skipped silently; a parsed object contributes the nested object
under its "parameters" key when one is present and the object itself
otherwise, merged with assignment semantics so that later sources override
earlier ones on key collision; and on the specified three-source example the
merge yields exactly the dict mapping a to 2 and b to 3. -/
theorem c5_merge_parameter_sources :
    processParameters [["\x7b\"parameters\":\x7b\"a\":1\x7d\x7d"],
        ["\x7b\"a\":2,\"b\":3\x7d"], ["not json"]] =
      .ok [("a", .num 2), ("b", .num 3)] ∧
    (∀ ls item, jsonParse item = none →
      processParameters (ls ++ [[item]]) = processParameters ls) ∧
    (∀ ls item d fields, processParameters ls = .ok d →
      jsonParse item = some (.obj fields) →
      dictLookup fields "parameters" = none → fields ≠ [] →
      processParameters (ls ++ [[item]]) = .ok (dictUpdate d fields)) ∧
    (∀ ls item d fields inner, processParameters ls = .ok d →
      jsonParse item = some (.obj fields) →
      dictLookup fields "parameters" = some (.obj inner) → inner ≠ [] →
      processParameters (ls ++ [[item]]) = .ok (dictUpdate d inner)) ∧
    (∀ d fs k v, (fs.map Prod.fst).Nodup → dictLookup fs k = some v →
      dictLookup (dictUpdate d fs) k = some v) := by
  refine ⟨rfl, ?_, ?_, ?_, ?_⟩
  · intro ls item h
    rw [processParameters_snoc]
    cases hpp : processParameters ls with
    | error e => rfl
    | ok d => simpa using processItem_of_parse_none d h
  · intro ls item d fields hpp h hlook hne
    rw [processParameters_snoc, hpp]
    simpa using processItem_obj_no_params d h hlook hne
  · intro ls item d fields inner hpp h hlook hne
    rw [processParameters_snoc, hpp]
    simpa using processItem_obj_params d h hlook hne
  · intro d fs k v hnd h
    exact dictUpdate_lookup_override fs d k v hnd h

theorem c5_merge_parameter_sources_witness :
    processParameters ([["\x7b\"a\":2\x7d"]] ++ [["not json"]]) =
      processParameters [["\x7b\"a\":2\x7d"]] ∧
    dictLookup (dictUpdate [("a", JValue.num 1)] [("a", JValue.num 2)]) "a" =
      some (JValue.num 2) :=
  ⟨c5_merge_parameter_sources.2.1 [["\x7b\"a\":2\x7d"]] "not json" rfl,
   c5_merge_parameter_sources.2.2.2.2 [("a", JValue.num 1)] [("a", JValue.num 2)]
     "a" (JValue.num 2) (by simp) rfl⟩

/-- C10 as stated is refuted at the concrete input consisting of the single
raw string "0": the merge does not skip it silently but raises an uncaught
AttributeError, because the parsed result 0 has no .get attribute. -/
theorem c10_counterexample :
    processParameters [["0"]] = .error .attributeError := rfl

/-- C10 amended: an entry whose parse result is a falsy dict (the empty
object) contributes nothing and raises nothing, indistinguishably from
invalid JSON; but an entry parsing to a falsy non-dict value (0, false or
null) raises an uncaught AttributeError instead of being skipped. -/
theorem c10_falsy_entries :
    ∀ ls d, processParameters ls = .ok d →
      processParameters (ls ++ [["\x7b\x7d"]]) = .ok d ∧
      processParameters (ls ++ [["0"]]) = .error .attributeError ∧
      processParameters (ls ++ [["false"]]) = .error .attributeError ∧
      processParameters (ls ++ [["null"]]) = .error .attributeError := by
  intro ls d h
  refine ⟨?_, ?_, ?_, ?_⟩ <;> rw [processParameters_snoc, h] <;> rfl

theorem c10_falsy_entries_witness :
    processParameters ([] ++ [["\x7b\x7d"]]) = .ok [] ∧
    processParameters ([] ++ [["0"]]) = .error .attributeError ∧
    processParameters ([] ++ [["false"]]) = .error .attributeError ∧
    processParameters ([] ++ [["null"]]) = .error .attributeError :=
  c10_falsy_entries [] [] rfl

end BotDeploy
